import Mathlib

/-!
Shallow embedding of `src/models/api_key_manager.py` (class `APIKeyManager`).

Per-key state records are Python dicts holding JSON scalars, modelled as
association lists `List (String × JVal)` with first-match lookup; the outer
`key_states` map (hashed key → state record) is modelled the same way.
Timestamps (`time.time()`) are modelled as integers; the SHA-256 fingerprint
`_hash_key` is an abstract parameter `hash : String → String` of every
operation.  `random.choice` is modelled by an explicit pick index, and the
persistence file together with its read/write outcomes is modelled explicitly
(`ReadResult`, `writeOk`), mirroring the try/except blocks that swallow every
persistence exception.
-/

namespace KeyPool

/-- A JSON scalar as stored in a per-key state record. -/
inductive JVal : Type
  | num (n : Int)
  | str (s : String)
deriving DecidableEq

/-- A per-key state record: the inner Python dict (fields `last_used`,
`cooldown_until`, `error_message`, `error_code`). -/
abbrev KeyState := List (String × JVal)

/-- `self.key_states`: map from hashed key to state record. -/
abbrev StateMap := List (String × KeyState)

/-- First-match association lookup: Python `d.get(k)`. -/
def alookup {α : Type} : List (String × α) → String → Option α
  | [], _ => none
  | (k', v) :: rest, k => if k' = k then some v else alookup rest k

/-- `d[k] = v` (equivalently `{**d, k: v}`): replace the binding of `k`
in place, or append a fresh binding. -/
def ainsert {α : Type} : List (String × α) → String → α → List (String × α)
  | [], k, v => [(k, v)]
  | (k', v') :: rest, k, v =>
    if k' = k then (k, v) :: rest else (k', v') :: ainsert rest k v

/-- `d.pop(k, None)`: drop the binding of `k` (dict keys are unique, so
dropping every occurrence agrees with dropping the one occurrence). -/
def aerase {α : Type} : List (String × α) → String → List (String × α)
  | [], _ => []
  | (k', v) :: rest, k =>
    if k' = k then aerase rest k else (k', v) :: aerase rest k

/-- `state.get(field, dflt)` for a numeric field. -/
def dgetNum (d : KeyState) (field : String) (dflt : Int) : Int :=
  match alookup d field with
  | some (JVal.num n) => n
  | _ => dflt

/-- The in-memory part of an `APIKeyManager`: the credential list and the
per-key state map. -/
structure Manager where
  api_keys : List String
  key_states : StateMap
deriving DecidableEq

/-- `_is_key_available`: the 6-second reuse spacing and the failure cooldown
must both have elapsed. -/
def is_key_available (hash : String → String) (states : StateMap)
    (key : String) (current_time : Int) : Bool :=
  let state := (alookup states (hash key)).getD []
  decide (dgetNum state "last_used" 0 + 6 ≤ current_time) &&
  decide (dgetNum state "cooldown_until" 0 ≤ current_time)

/-- `get_available_key`: filter the pool by availability at `now`, pick one
of the survivors (`pick` models `random.choice`), stamp its `last_used`,
and return it; return `none` when no key survives the filter. -/
def get_available_key (hash : String → String) (m : Manager) (now : Int)
    (pick : Nat) : Option String × Manager :=
  let available := m.api_keys.filter (fun k => is_key_available hash m.key_states k now)
  match available[pick % available.length]? with
  | some chosen =>
    let hashed_key := hash chosen
    let old := (alookup m.key_states hashed_key).getD []
    (some chosen,
      { m with key_states :=
          ainsert m.key_states hashed_key (ainsert old "last_used" (JVal.num now)) })
  | none => (none, m)

/-- `update_key_status`: raise `ValueError` when a failure report lacks its
error detail; on success pop the failure fields; on failure set a six-hour
cooldown and record the error detail. -/
def update_key_status (hash : String → String) (m : Manager) (key : String)
    (success : Bool) (error_message : Option String) (error_code : Option Int)
    (now : Int) : Except String Manager :=
  if success = false ∧ (error_message = none ∨ error_code = none) then
    Except.error "error_message and error_code are required when success=False"
  else
    let hashed_key := hash key
    if success then
      match alookup m.key_states hashed_key with
      | some st =>
        let cleared := aerase (aerase (aerase st "cooldown_until") "error_message") "error_code"
        Except.ok { m with key_states := ainsert m.key_states hashed_key cleared }
      | none => Except.ok m
    else
      let cooldown_until := now + 6 * 3600
      let old := (alookup m.key_states hashed_key).getD []
      let recorded :=
        ainsert (ainsert (ainsert old "cooldown_until" (JVal.num cooldown_until))
          "error_message" (JVal.str (error_message.getD "")))
          "error_code" (JVal.num (error_code.getD 0))
      Except.ok { m with key_states := ainsert m.key_states hashed_key recorded }

/-- `get_key_status`: a copy of the key's state record, `{}` when absent. -/
def get_key_status (hash : String → String) (m : Manager) (key : String) : KeyState :=
  (alookup m.key_states (hash key)).getD []

/-- `_load_keys`: parse the `API_KEYS` environment variable (comma-separated,
stripped, empties dropped, duplicates removed); `[]` when unset or empty. -/
def load_keys (env : Option String) : List String :=
  match env with
  | none => []
  | some s =>
    if s = "" then []
    else (((s.splitOn ",").map String.trim).filter (fun k => decide (k ≠ ""))).dedup

/-- Outcome of reading the persistence file: absent, unreadable/corrupt
(any exception), or successfully parsed contents. -/
inductive ReadResult : Type
  | missing
  | failed
  | ok (persisted : StateMap)

/-- `_load_persisted_states`: `{}` when the file is missing; `{}` when any
exception occurs (caught and logged); otherwise keep only entries whose key
is the fingerprint of a current credential. -/
def load_persisted_states (hash : String → String) (api_keys : List String) :
    ReadResult → StateMap
  | ReadResult.missing => []
  | ReadResult.failed => []
  | ReadResult.ok persisted =>
    persisted.filter (fun e => decide (e.1 ∈ api_keys.map hash))

/-- `APIKeyManager.__init__` + `_validate_keys`: take the explicit key list
when given (even if empty), otherwise parse the environment; fail when the
resulting set is empty; then load persisted states. -/
def mkManager (hash : String → String) (api_keys : Option (List String))
    (env : Option String) (r : ReadResult) : Except String Manager :=
  let keys := api_keys.getD (load_keys env)
  if keys = [] then
    Except.error "No API keys provided in constructor or API_KEYS environment variable"
  else
    Except.ok { api_keys := keys, key_states := load_persisted_states hash keys r }

/-- The manager together with the persistence file's contents. -/
structure Sys where
  m : Manager
  file : StateMap
deriving DecidableEq

/-- `_persist_states`: overwrite the file with the current states; a failed
write (exception caught and logged) leaves the old contents. -/
def persist_states (writeOk : Bool) (file new : StateMap) : StateMap :=
  if writeOk then new else file

/-- `get_available_key` observed together with the persistence file: the file
is rewritten only when a key was chosen. -/
def selectSys (hash : String → String) (writeOk : Bool) (s : Sys) (now : Int)
    (pick : Nat) : Option String × Sys :=
  let r := get_available_key hash s.m now pick
  (r.1,
    { m := r.2,
      file := if r.1.isSome then persist_states writeOk s.file r.2.key_states else s.file })

/-- `update_key_status` observed together with the persistence file. -/
def updateSys (hash : String → String) (writeOk : Bool) (s : Sys) (key : String)
    (success : Bool) (error_message : Option String) (error_code : Option Int)
    (now : Int) : Except String Sys :=
  (update_key_status hash s.m key success error_message error_code now).map
    (fun m2 => { m := m2, file := persist_states writeOk s.file m2.key_states })

/-- The manager seen by the caller after `update_key_status`: unchanged when
the call raised. -/
def recoverUpdate (hash : String → String) (m : Manager) (key : String)
    (success : Bool) (error_message : Option String) (error_code : Option Int)
    (now : Int) : Manager :=
  match update_key_status hash m key success error_message error_code now with
  | Except.ok m2 => m2
  | Except.error _ => m

/-- One failure report with full error detail (always succeeds). -/
def failStep (hash : String → String) (key em : String) (ec : Int)
    (m : Manager) (t : Int) : Manager :=
  recoverUpdate hash m key false (some em) (some ec) t

/-- The `cooldown_until` recorded for `key`, `0` when unset. -/
def cooldown_untilOf (hash : String → String) (m : Manager) (key : String) : Int :=
  dgetNum (get_key_status hash m key) "cooldown_until" 0

/-- The `last_used` recorded for `key`, `0` when unset. -/
def last_usedOf (hash : String → String) (m : Manager) (key : String) : Int :=
  dgetNum (get_key_status hash m key) "last_used" 0

/-- Successive `cooldown_until` values along a run of consecutive failure
reports at the given times. -/
def cooldownTrace (hash : String → String) (key em : String) (ec : Int) :
    Manager → List Int → List Int
  | _, [] => []
  | m, t :: ts =>
    let m2 := failStep hash key em ec m t
    cooldown_untilOf hash m2 key :: cooldownTrace hash key em ec m2 ts

/-- A run of `get_available_key` calls, each given by its call time and its
pick index; returns the final manager. -/
def runSelects (hash : String → String) : Manager → List (Int × Nat) → Manager
  | m, [] => m
  | m, (t, p) :: rest => runSelects hash (get_available_key hash m t p).2 rest

/-! ### Association-list lemmas -/

theorem alookup_ainsert_self {α : Type} (l : List (String × α)) (k : String) (v : α) :
    alookup (ainsert l k v) k = some v := by
  induction l with
  | nil => simp [ainsert, alookup]
  | cons e rest ih =>
    obtain ⟨k', v'⟩ := e
    by_cases h : k' = k
    · simp [ainsert, h, alookup]
    · simp [ainsert, h, alookup, ih]

theorem alookup_ainsert_ne {α : Type} (l : List (String × α)) (k : String) (v : α)
    (k' : String) (h : k' ≠ k) : alookup (ainsert l k v) k' = alookup l k' := by
  induction l with
  | nil => simp [ainsert, alookup, Ne.symm h]
  | cons e rest ih =>
    obtain ⟨k'', v''⟩ := e
    by_cases hk : k'' = k
    · subst hk
      simp [ainsert, alookup, Ne.symm h]
    · by_cases hq : k'' = k'
      · simp [ainsert, hk, alookup, hq, h]
      · simp [ainsert, hk, alookup, hq, ih]

theorem alookup_aerase_self {α : Type} (l : List (String × α)) (k : String) :
    alookup (aerase l k) k = none := by
  induction l with
  | nil => simp [aerase, alookup]
  | cons e rest ih =>
    obtain ⟨k', v'⟩ := e
    by_cases h : k' = k
    · simp [aerase, h, ih]
    · simp [aerase, h, alookup, ih]

theorem alookup_aerase_ne {α : Type} (l : List (String × α)) (k : String)
    (k' : String) (h : k' ≠ k) : alookup (aerase l k) k' = alookup l k' := by
  induction l with
  | nil => simp [aerase]
  | cons e rest ih =>
    obtain ⟨k'', v''⟩ := e
    by_cases hk : k'' = k
    · subst hk
      simp [aerase, alookup, Ne.symm h, ih]
    · by_cases hq : k'' = k'
      · simp [aerase, hk, alookup, hq, h]
      · simp [aerase, hk, alookup, hq, ih]

theorem aerase_of_none {α : Type} (l : List (String × α)) (k : String)
    (h : alookup l k = none) : aerase l k = l := by
  induction l with
  | nil => simp [aerase]
  | cons e rest ih =>
    obtain ⟨k', v'⟩ := e
    by_cases hk : k' = k
    · simp [alookup, hk] at h
    · simp [alookup, hk] at h
      simp [aerase, hk, ih h]

theorem ainsert_of_lookup {α : Type} (l : List (String × α)) (k : String) (v : α)
    (h : alookup l k = some v) : ainsert l k v = l := by
  induction l with
  | nil => simp [alookup] at h
  | cons e rest ih =>
    obtain ⟨k', v'⟩ := e
    by_cases hk : k' = k
    · subst hk
      simp [alookup] at h
      simp [ainsert, h]
    · simp [alookup, hk] at h
      simp [ainsert, hk, ih h]

theorem alookup_filter {α : Type} (q : String → Bool) (l : List (String × α)) (key : String) :
    alookup (l.filter (fun e => q e.1)) key = if q key then alookup l key else none := by
  induction l with
  | nil => simp [alookup]
  | cons e rest ih =>
    obtain ⟨k', v'⟩ := e
    by_cases hq : q k'
    · by_cases hk : k' = key
      · subst hk
        simp [List.filter, hq, alookup, ih]
      · simp [List.filter, hq, alookup, hk, ih]
    · by_cases hk : k' = key
      · subst hk
        simp [List.filter, hq, alookup, ih]
      · simp [List.filter, hq, alookup, hk, ih]

/-! ### Availability and selection lemmas -/

theorem is_key_available_iff (hash : String → String) (states : StateMap)
    (key : String) (t : Int) :
    is_key_available hash states key t = true ↔
      dgetNum ((alookup states (hash key)).getD []) "last_used" 0 + 6 ≤ t ∧
      dgetNum ((alookup states (hash key)).getD []) "cooldown_until" 0 ≤ t := by
  simp [is_key_available]

theorem get_available_key_some (hash : String → String) (m : Manager) (now : Int)
    (pick : Nat) (k : String)
    (h : (get_available_key hash m now pick).1 = some k) :
    k ∈ m.api_keys ∧ is_key_available hash m.key_states k now = true ∧
    (get_available_key hash m now pick).2.api_keys = m.api_keys ∧
    (get_available_key hash m now pick).2.key_states
      = ainsert m.key_states (hash k)
          (ainsert ((alookup m.key_states (hash k)).getD []) "last_used" (JVal.num now)) := by
  rcases hc : (m.api_keys.filter fun k' => is_key_available hash m.key_states k' now)[pick % (m.api_keys.filter fun k' => is_key_available hash m.key_states k' now).length]? with _ | chosen
  · rw [get_available_key] at h
    simp only [hc] at h
    simp at h
  · have hmem := List.getElem?_mem hc
    rw [List.mem_filter] at hmem
    rw [get_available_key] at h ⊢
    simp only [hc] at h ⊢
    simp at h
    subst h
    refine ⟨hmem.1, hmem.2, ?_, ?_⟩ <;> constructor

theorem get_available_key_none (hash : String → String) (m : Manager) (now : Int)
    (pick : Nat)
    (h : ∀ k ∈ m.api_keys, is_key_available hash m.key_states k now = false) :
    (get_available_key hash m now pick).1 = none ∧
    (get_available_key hash m now pick).2 = m := by
  have hfil : m.api_keys.filter (fun k => is_key_available hash m.key_states k now) = [] :=
    List.filter_eq_nil_iff.2 (by intro a ha; simp [h a ha])
  rw [get_available_key]
  simp only [hfil]
  simp

/-- C1: `get_available_key` returns a key `k` only when both availability
conditions hold at the call time (`cooldown_until ≤ now` and
`last_used + 6 ≤ now`, absent fields reading as `0`); a key with no recorded
state is available (once the clock has passed the trivial first 6 seconds);
and when no key in the pool is available the call returns `none`. -/
theorem selectKey_only_available (hash : String → String) (m : Manager) (now : Int)
    (pick : Nat) (k : String) :
    ((get_available_key hash m now pick).1 = some k →
      cooldown_untilOf hash m k ≤ now ∧ last_usedOf hash m k + 6 ≤ now) ∧
    ((∀ k' ∈ m.api_keys, is_key_available hash m.key_states k' now = false) →
      (get_available_key hash m now pick).1 = none) ∧
    (alookup m.key_states (hash k) = none → 6 ≤ now →
      is_key_available hash m.key_states k now = true) := by
  refine ⟨?_, ?_, ?_⟩
  · intro h
    have hav := (get_available_key_some hash m now pick k h).2.1
    rw [is_key_available_iff] at hav
    exact ⟨hav.2, hav.1⟩
  · intro h
    exact (get_available_key_none hash m now pick h).1
  · intro h h6
    rw [is_key_available_iff, h]
    simp [dgetNum, alookup]
    omega

/-- Witness for C1: with one fresh key, selection at time 100 returns it and
both conditions hold; with one key cooling down until 200, selection at
time 100 returns `none`. -/
theorem selectKey_only_available_witness :
    (cooldown_untilOf id ⟨["a"], []⟩ "a" ≤ 100 ∧ last_usedOf id ⟨["a"], []⟩ "a" + 6 ≤ 100) ∧
    (get_available_key id ⟨["b"], [("b", [("cooldown_until", JVal.num 200)])]⟩ 100 0).1 = none :=
  ⟨(selectKey_only_available id ⟨["a"], []⟩ 100 0 "a").1 (by decide),
   (selectKey_only_available id ⟨["b"], [("b", [("cooldown_until", JVal.num 200)])]⟩ 100 0 "b").2.1
     (by decide)⟩

/-- C2 counterexample: reporting a failure on a fresh key stores exactly a
`cooldown_until`, an `error_message` and an `error_code` — the resulting
state record carries no consecutive-failure counter at all, so the claimed
increment of `consecutiveFailures` does not happen. -/
theorem update_failure_no_counter :
    update_key_status id ⟨["a"], []⟩ "a" false (some "boom") (some 500) 100
      = Except.ok ⟨["a"], [("a", [("cooldown_until", JVal.num 21700),
          ("error_message", JVal.str "boom"), ("error_code", JVal.num 500)])]⟩ ∧
    alookup (get_key_status id ⟨["a"], [("a", [("cooldown_until", JVal.num 21700),
        ("error_message", JVal.str "boom"), ("error_code", JVal.num 500)])]⟩ "a")
      "consecutive_failures" = none :=
  ⟨rfl, rfl⟩

/-- C2 (amended): a failure report with full detail always succeeds, sets
`cooldown_until = now + 6 * 3600` regardless of any failure count, and
records the error message and code in the key's state; no consecutive-failure
counter is maintained. -/
theorem update_failure_records (hash : String → String) (m : Manager) (k em : String)
    (ec now : Int) :
    update_key_status hash m k false (some em) (some ec) now
      = Except.ok (recoverUpdate hash m k false (some em) (some ec) now) ∧
    alookup (get_key_status hash (recoverUpdate hash m k false (some em) (some ec) now) k)
      "cooldown_until" = some (JVal.num (now + 6 * 3600)) ∧
    alookup (get_key_status hash (recoverUpdate hash m k false (some em) (some ec) now) k)
      "error_message" = some (JVal.str em) ∧
    alookup (get_key_status hash (recoverUpdate hash m k false (some em) (some ec) now) k)
      "error_code" = some (JVal.num ec) := by
  have h1 : ("cooldown_until" : String) ≠ "error_code" := by decide
  have h2 : ("cooldown_until" : String) ≠ "error_message" := by decide
  have h3 : ("error_message" : String) ≠ "error_code" := by decide
  have hupd : update_key_status hash m k false (some em) (some ec) now
      = Except.ok ⟨m.api_keys, ainsert m.key_states (hash k)
          (ainsert (ainsert (ainsert ((alookup m.key_states (hash k)).getD [])
              "cooldown_until" (JVal.num (now + 6 * 3600)))
            "error_message" (JVal.str em))
            "error_code" (JVal.num ec))⟩ := by
    simp [update_key_status]
  have hrec : recoverUpdate hash m k false (some em) (some ec) now
      = ⟨m.api_keys, ainsert m.key_states (hash k)
          (ainsert (ainsert (ainsert ((alookup m.key_states (hash k)).getD [])
              "cooldown_until" (JVal.num (now + 6 * 3600)))
            "error_message" (JVal.str em))
            "error_code" (JVal.num ec))⟩ := by
    rw [recoverUpdate, hupd]
  rw [hrec, hupd]
  refine ⟨rfl, ?_, ?_, ?_⟩ <;>
    simp [get_key_status, alookup_ainsert_self, alookup_ainsert_ne _ _ _ _ h1,
      alookup_ainsert_ne _ _ _ _ h2, alookup_ainsert_ne _ _ _ _ h3]

/-- Witness for C2 (amended): a failure report at time 100 with message
"boom" and code 500 on a fresh key records cooldown 21700 and the detail. -/
theorem update_failure_records_witness :
    update_key_status id ⟨["a"], []⟩ "a" false (some "boom") (some 500) 100
      = Except.ok (recoverUpdate id ⟨["a"], []⟩ "a" false (some "boom") (some 500) 100) ∧
    alookup (get_key_status id (recoverUpdate id ⟨["a"], []⟩ "a" false (some "boom") (some 500) 100) "a")
      "cooldown_until" = some (JVal.num (100 + 6 * 3600)) :=
  ⟨(update_failure_records id ⟨["a"], []⟩ "a" "boom" 500 100).1,
   (update_failure_records id ⟨["a"], []⟩ "a" "boom" 500 100).2.1⟩

/-- C3: a success report never raises, removes `cooldown_until`,
`error_message` and `error_code` from the key's state, leaves the
consecutive-failure reading at `0` (no such field is ever present in
manager-produced states), and a second success report returns the very same
manager (idempotence). -/
theorem update_success_clears (hash : String → String) (m : Manager) (k : String)
    (now now2 : Int) :
    update_key_status hash m k true none none now
      = Except.ok (recoverUpdate hash m k true none none now) ∧
    alookup (get_key_status hash (recoverUpdate hash m k true none none now) k)
      "cooldown_until" = none ∧
    alookup (get_key_status hash (recoverUpdate hash m k true none none now) k)
      "error_message" = none ∧
    alookup (get_key_status hash (recoverUpdate hash m k true none none now) k)
      "error_code" = none ∧
    (alookup (get_key_status hash m k) "consecutive_failures" = none →
      dgetNum (get_key_status hash (recoverUpdate hash m k true none none now) k)
        "consecutive_failures" 0 = 0) ∧
    update_key_status hash (recoverUpdate hash m k true none none now) k true none none now2
      = Except.ok (recoverUpdate hash m k true none none now) := by
  have hcm : ("cooldown_until" : String) ≠ "error_message" := by decide
  have hcc : ("cooldown_until" : String) ≠ "error_code" := by decide
  have hmc : ("error_message" : String) ≠ "error_code" := by decide
  have hfc : ("consecutive_failures" : String) ≠ "cooldown_until" := by decide
  have hfm : ("consecutive_failures" : String) ≠ "error_message" := by decide
  have hfe : ("consecutive_failures" : String) ≠ "error_code" := by decide
  cases halt : alookup m.key_states (hash k) with
  | none =>
    have hupd : update_key_status hash m k true none none now = Except.ok m := by
      rw [update_key_status]
      simp [halt]
    have hrec : recoverUpdate hash m k true none none now = m := by
      rw [recoverUpdate, hupd]
    rw [hrec, hupd]
    refine ⟨rfl, ?_, ?_, ?_, ?_, ?_⟩
    · simp [get_key_status, halt, alookup]
    · simp [get_key_status, halt, alookup]
    · simp [get_key_status, halt, alookup]
    · intro hcf
      simp [get_key_status, halt, dgetNum, alookup]
    · rw [update_key_status]
      simp [halt]
  | some st =>
    have hupd : update_key_status hash m k true none none now
        = Except.ok ⟨m.api_keys, ainsert m.key_states (hash k)
            (aerase (aerase (aerase st "cooldown_until") "error_message") "error_code")⟩ := by
      rw [update_key_status]
      simp [halt]
    have hrec : recoverUpdate hash m k true none none now
        = ⟨m.api_keys, ainsert m.key_states (hash k)
            (aerase (aerase (aerase st "cooldown_until") "error_message") "error_code")⟩ := by
      rw [recoverUpdate, hupd]
    have hget : get_key_status hash ⟨m.api_keys, ainsert m.key_states (hash k)
          (aerase (aerase (aerase st "cooldown_until") "error_message") "error_code")⟩ k
        = aerase (aerase (aerase st "cooldown_until") "error_message") "error_code" := by
      simp [get_key_status, alookup_ainsert_self]
    have hcu : alookup (aerase (aerase (aerase st "cooldown_until") "error_message")
        "error_code") "cooldown_until" = none := by
      rw [alookup_aerase_ne _ _ _ hcc, alookup_aerase_ne _ _ _ hcm, alookup_aerase_self]
    have hem : alookup (aerase (aerase (aerase st "cooldown_until") "error_message")
        "error_code") "error_message" = none := by
      rw [alookup_aerase_ne _ _ _ hmc, alookup_aerase_self]
    have hec : alookup (aerase (aerase (aerase st "cooldown_until") "error_message")
        "error_code") "error_code" = none := by
      rw [alookup_aerase_self]
    rw [hrec, hupd]
    refine ⟨rfl, ?_, ?_, ?_, ?_, ?_⟩
    · rw [hget, hcu]
    · rw [hget, hem]
    · rw [hget, hec]
    · intro hcf
      rw [get_key_status, halt] at hcf
      simp at hcf
      rw [hget, dgetNum, alookup_aerase_ne _ _ _ hfe, alookup_aerase_ne _ _ _ hfm,
        alookup_aerase_ne _ _ _ hfc, hcf]
    · have hlook : alookup (ainsert m.key_states (hash k)
          (aerase (aerase (aerase st "cooldown_until") "error_message") "error_code")) (hash k)
          = some (aerase (aerase (aerase st "cooldown_until") "error_message") "error_code") :=
        alookup_ainsert_self _ _ _
      rw [update_key_status]
      simp only [hlook]
      rw [aerase_of_none _ _ hcu, aerase_of_none _ _ hem, aerase_of_none _ _ hec]
      simp [ainsert_of_lookup _ _ _ hlook]

/-- Witness for C3: clearing a concrete failed state removes the failure
fields, reads zero consecutive failures, and is idempotent. -/
theorem update_success_clears_witness :
    alookup (get_key_status id (recoverUpdate id ⟨["a"], [("a", [("cooldown_until", JVal.num 999),
        ("error_message", JVal.str "x"), ("error_code", JVal.num 7)])]⟩ "a" true none none 50) "a")
      "cooldown_until" = none ∧
    dgetNum (get_key_status id (recoverUpdate id ⟨["a"], [("a", [("cooldown_until", JVal.num 999),
        ("error_message", JVal.str "x"), ("error_code", JVal.num 7)])]⟩ "a" true none none 50) "a")
      "consecutive_failures" 0 = 0 :=
  ⟨(update_success_clears id ⟨["a"], [("a", [("cooldown_until", JVal.num 999),
      ("error_message", JVal.str "x"), ("error_code", JVal.num 7)])]⟩ "a" 50 60).2.1,
   (update_success_clears id ⟨["a"], [("a", [("cooldown_until", JVal.num 999),
      ("error_message", JVal.str "x"), ("error_code", JVal.num 7)])]⟩ "a" 50 60).2.2.2.2.1
     (by decide)⟩

/-- C4: a failure report missing its error message or its error code raises
`ValueError` and leaves the manager (credential list and key-state map)
exactly as it was. -/
theorem update_missing_detail_raises (hash : String → String) (m : Manager) (k : String)
    (em : Option String) (ec : Option Int) (now : Int)
    (h : em = none ∨ ec = none) :
    update_key_status hash m k false em ec now
      = Except.error "error_message and error_code are required when success=False" ∧
    recoverUpdate hash m k false em ec now = m := by
  have herr : update_key_status hash m k false em ec now
      = Except.error "error_message and error_code are required when success=False" := by
    rw [update_key_status, if_pos ⟨rfl, h⟩]
  exact ⟨herr, by rw [recoverUpdate, herr]⟩

/-- Witness for C4: a failure report with no error message raises and the
manager is unchanged. -/
theorem update_missing_detail_raises_witness :
    update_key_status id ⟨["a"], []⟩ "a" false none (some 500) 7
      = Except.error "error_message and error_code are required when success=False" ∧
    recoverUpdate id ⟨["a"], []⟩ "a" false none (some 500) 7 = ⟨["a"], []⟩ :=
  update_missing_detail_raises id ⟨["a"], []⟩ "a" none (some 500) 7 (Or.inl rfl)

/-! ### Failure-branch helpers shared by several claims -/

theorem update_failure_eq (hash : String → String) (m : Manager) (k em : String)
    (ec now : Int) :
    update_key_status hash m k false (some em) (some ec) now
      = Except.ok ⟨m.api_keys, ainsert m.key_states (hash k)
          (ainsert (ainsert (ainsert ((alookup m.key_states (hash k)).getD [])
              "cooldown_until" (JVal.num (now + 6 * 3600)))
            "error_message" (JVal.str em))
            "error_code" (JVal.num ec))⟩ := by
  simp [update_key_status]

theorem failStep_eq (hash : String → String) (key em : String) (ec : Int)
    (m : Manager) (t : Int) :
    failStep hash key em ec m t
      = ⟨m.api_keys, ainsert m.key_states (hash key)
          (ainsert (ainsert (ainsert ((alookup m.key_states (hash key)).getD [])
              "cooldown_until" (JVal.num (t + 6 * 3600)))
            "error_message" (JVal.str em))
            "error_code" (JVal.num ec))⟩ := by
  rw [failStep, recoverUpdate, update_failure_eq]

theorem cooldown_untilOf_failStep (hash : String → String) (key em : String) (ec : Int)
    (m : Manager) (t : Int) :
    cooldown_untilOf hash (failStep hash key em ec m t) key = t + 6 * 3600 := by
  have h1 : ("cooldown_until" : String) ≠ "error_code" := by decide
  have h2 : ("cooldown_until" : String) ≠ "error_message" := by decide
  rw [failStep_eq, cooldown_untilOf, get_key_status]
  simp [alookup_ainsert_self, alookup_ainsert_ne _ _ _ _ h1, alookup_ainsert_ne _ _ _ _ h2,
    dgetNum]

theorem cooldownTrace_map (hash : String → String) (key em : String) (ec : Int)
    (m : Manager) (ts : List Int) :
    cooldownTrace hash key em ec m ts = ts.map (fun t => t + 6 * 3600) := by
  induction ts generalizing m with
  | nil => rfl
  | cons t rest ih => simp [cooldownTrace, cooldown_untilOf_failStep, ih]

/-- C5: along any run of consecutive failure reports for the same key at
non-decreasing call times, the recorded `cooldown_until` values are
non-decreasing (each one is its call time plus six hours). -/
theorem cooldown_monotone (hash : String → String) (key em : String) (ec : Int)
    (m : Manager) (ts : List Int) (h : ts.Pairwise (· ≤ ·)) :
    (cooldownTrace hash key em ec m ts).Pairwise (· ≤ ·) := by
  rw [cooldownTrace_map]
  exact h.map _ (fun a b hab => by omega)

/-- Witness for C5: three failures at times 10, 20, 30 give non-decreasing
cooldowns. -/
theorem cooldown_monotone_witness :
    (cooldownTrace id "a" "e" 1 ⟨["a"], []⟩ [10, 20, 30]).Pairwise (· ≤ ·) :=
  cooldown_monotone id "a" "e" 1 ⟨["a"], []⟩ [10, 20, 30] (by decide)

/-- C6: writing the key-state map and constructing a fresh manager over the
same credential list succeeds and reproduces the status of every credential
in the list, while persisted entries whose key is not the fingerprint of any
active credential are dropped on load. -/
theorem persist_roundtrip (hash : String → String) (m : Manager)
    (hne : m.api_keys ≠ []) :
    mkManager hash (some m.api_keys) none (ReadResult.ok m.key_states)
      = Except.ok ⟨m.api_keys, load_persisted_states hash m.api_keys (ReadResult.ok m.key_states)⟩ ∧
    (∀ k, k ∈ m.api_keys →
      get_key_status hash
          ⟨m.api_keys, load_persisted_states hash m.api_keys (ReadResult.ok m.key_states)⟩ k
        = get_key_status hash m k) ∧
    (∀ fp, fp ∉ m.api_keys.map hash →
      alookup (load_persisted_states hash m.api_keys (ReadResult.ok m.key_states)) fp = none) := by
  refine ⟨?_, ?_, ?_⟩
  · rw [mkManager]
    simp [hne]
  · intro k hk
    rw [get_key_status, get_key_status, load_persisted_states,
      alookup_filter (fun x => decide (x ∈ m.api_keys.map hash)) m.key_states (hash k)]
    simp [List.mem_map.2 ⟨k, hk, rfl⟩]
  · intro fp hfp
    rw [load_persisted_states,
      alookup_filter (fun x => decide (x ∈ m.api_keys.map hash)) m.key_states fp]
    simp [hfp]

/-- Witness for C6: round-trip over one credential preserves its status and
drops a stale entry keyed by a fingerprint of no active credential. -/
theorem persist_roundtrip_witness :
    get_key_status id ⟨["a"], load_persisted_states id ["a"] (ReadResult.ok
        [("a", [("last_used", JVal.num 5)]), ("zzz", [("cooldown_until", JVal.num 9)])])⟩ "a"
      = get_key_status id
          ⟨["a"], [("a", [("last_used", JVal.num 5)]), ("zzz", [("cooldown_until", JVal.num 9)])]⟩ "a" ∧
    alookup (load_persisted_states id ["a"] (ReadResult.ok
        [("a", [("last_used", JVal.num 5)]), ("zzz", [("cooldown_until", JVal.num 9)])])) "zzz"
      = none :=
  ⟨(persist_roundtrip id ⟨["a"], [("a", [("last_used", JVal.num 5)]),
      ("zzz", [("cooldown_until", JVal.num 9)])]⟩ (by decide)).2.1 "a" (by decide),
   (persist_roundtrip id ⟨["a"], [("a", [("last_used", JVal.num 5)]),
      ("zzz", [("cooldown_until", JVal.num 9)])]⟩ (by decide)).2.2 "zzz" (by decide)⟩

/-- C7: construction fails with the configuration error exactly when the
effective credential list (explicit argument, else the parsed environment
variable, which is empty when the variable is unset or blank) is empty, and
succeeds otherwise. -/
theorem construction_requires_keys (hash : String → String)
    (keys? : Option (List String)) (env : Option String) (r : ReadResult) :
    load_keys none = [] ∧ load_keys (some "") = [] ∧
    (keys?.getD (load_keys env) = [] →
      mkManager hash keys? env r
        = Except.error "No API keys provided in constructor or API_KEYS environment variable") ∧
    (keys?.getD (load_keys env) ≠ [] →
      mkManager hash keys? env r
        = Except.ok ⟨keys?.getD (load_keys env),
            load_persisted_states hash (keys?.getD (load_keys env)) r⟩) := by
  refine ⟨rfl, rfl, ?_, ?_⟩
  · intro h
    rw [mkManager, if_pos h]
  · intro h
    rw [mkManager, if_neg h]

/-- Witness for C7: an explicitly empty credential list is rejected; a
one-element list is accepted. -/
theorem construction_requires_keys_witness :
    mkManager id (some []) none ReadResult.missing
      = Except.error "No API keys provided in constructor or API_KEYS environment variable" ∧
    mkManager id (some ["a"]) none ReadResult.missing
      = Except.ok ⟨["a"], load_persisted_states id ["a"] ReadResult.missing⟩ :=
  ⟨(construction_requires_keys id (some []) none ReadResult.missing).2.2.1 rfl,
   (construction_requires_keys id (some ["a"]) none ReadResult.missing).2.2.2 (by decide)⟩

/-- C8: a missing or unreadable/corrupt state file loads as the empty state
map, and a failed state-file write changes neither the value returned by
`get_available_key` or `update_key_status` nor the resulting in-memory
manager. -/
theorem persistence_faults_absorbed (hash : String → String) (api_keys : List String)
    (s : Sys) (now : Int) (pick : Nat) (key : String) (success : Bool)
    (em : Option String) (ec : Option Int) :
    load_persisted_states hash api_keys ReadResult.missing = [] ∧
    load_persisted_states hash api_keys ReadResult.failed = [] ∧
    (selectSys hash false s now pick).1 = (selectSys hash true s now pick).1 ∧
    (selectSys hash false s now pick).2.m = (selectSys hash true s now pick).2.m ∧
    (updateSys hash false s key success em ec now).map Sys.m
      = (updateSys hash true s key success em ec now).map Sys.m := by
  refine ⟨rfl, rfl, rfl, rfl, ?_⟩
  rw [updateSys, updateSys]
  cases update_key_status hash s.m key success em ec now <;> rfl

/-! ### Reuse-spacing invariant for selection runs -/

theorem get_available_key_none_snd (hash : String → String) (m : Manager) (t : Int)
    (p : Nat) (h : (get_available_key hash m t p).1 = none) :
    (get_available_key hash m t p).2 = m := by
  rcases hc : (m.api_keys.filter fun k' => is_key_available hash m.key_states k' t)[p % (m.api_keys.filter fun k' => is_key_available hash m.key_states k' t).length]? with _ | chosen
  · rw [get_available_key]
    simp only [hc]
  · rw [get_available_key] at h
    simp only [hc] at h
    simp at h

theorem select_some_spacing (hash : String → String) (m : Manager) (t : Int)
    (p : Nat) (k : String) (h : (get_available_key hash m t p).1 = some k) :
    last_usedOf hash m k + 6 ≤ t := by
  have hav := (get_available_key_some hash m t p k h).2.1
  rw [is_key_available_iff] at hav
  exact hav.1

theorem last_usedOf_select_stamp (hash : String → String) (m : Manager) (t : Int)
    (p : Nat) (k : String) (h : (get_available_key hash m t p).1 = some k) :
    last_usedOf hash (get_available_key hash m t p).2 k = t := by
  have hks := (get_available_key_some hash m t p k h).2.2.2
  rw [last_usedOf, get_key_status, hks, alookup_ainsert_self]
  simp [dgetNum, alookup_ainsert_self]

theorem last_usedOf_select_mono (hash : String → String) (m : Manager) (t : Int)
    (p : Nat) (k : String) (s : Int) (hs : s ≤ last_usedOf hash m k) :
    s ≤ last_usedOf hash (get_available_key hash m t p).2 k := by
  cases hr : (get_available_key hash m t p).1 with
  | none =>
    rw [get_available_key_none_snd hash m t p hr]
    exact hs
  | some chosen =>
    obtain ⟨-, hav, -, hks⟩ := get_available_key_some hash m t p chosen hr
    rw [is_key_available_iff] at hav
    by_cases hh : hash chosen = hash k
    · have hle : last_usedOf hash m k + 6 ≤ t := by
        rw [last_usedOf, get_key_status, ← hh]
        exact hav.1
      rw [last_usedOf, get_key_status, hks, hh, alookup_ainsert_self]
      simp only [Option.getD_some]
      rw [dgetNum, alookup_ainsert_self]
      show s ≤ t
      omega
    · rw [last_usedOf, get_key_status, hks,
        alookup_ainsert_ne _ _ _ _ (fun hx => hh hx.symm)]
      exact hs

theorem last_usedOf_run_mono (hash : String → String) (k : String) (s : Int)
    (calls : List (Int × Nat)) :
    ∀ m : Manager, s ≤ last_usedOf hash m k →
      s ≤ last_usedOf hash (runSelects hash m calls) k := by
  induction calls with
  | nil =>
    intro m h
    exact h
  | cons c rest ih =>
    intro m h
    obtain ⟨t, p⟩ := c
    exact ih _ (last_usedOf_select_mono hash m t p k s h)

/-- C9: a successful selection stamps the chosen key's `last_used` with the
call time, and in any serialized run of selections, when a call at time `t1`
and a later call at time `t2` (with arbitrary selections in between) both
return the same key `k`, then `t1 + 6 ≤ t2`: the same key is never handed
out twice within 6 seconds. -/
theorem select_spacing (hash : String → String) (m : Manager)
    (pre mid : List (Int × Nat)) (t1 t2 : Int) (p1 p2 : Nat) (k : String)
    (h1 : (get_available_key hash (runSelects hash m pre) t1 p1).1 = some k)
    (h2 : (get_available_key hash
            (runSelects hash (get_available_key hash (runSelects hash m pre) t1 p1).2 mid)
            t2 p2).1 = some k) :
    last_usedOf hash (get_available_key hash (runSelects hash m pre) t1 p1).2 k = t1 ∧
    t1 + 6 ≤ t2 := by
  have hstamp := last_usedOf_select_stamp hash (runSelects hash m pre) t1 p1 k h1
  refine ⟨hstamp, ?_⟩
  have hmono := last_usedOf_run_mono hash k t1 mid
    (get_available_key hash (runSelects hash m pre) t1 p1).2 (le_of_eq hstamp.symm)
  have hsp := select_some_spacing hash
    (runSelects hash (get_available_key hash (runSelects hash m pre) t1 p1).2 mid) t2 p2 k h2
  omega

/-- Witness for C9: with a single key, a selection at time 100 and the next
at time 106 may both return it, the first stamping `last_used = 100`, and
the spacing bound `100 + 6 ≤ 106` holds. -/
theorem select_spacing_witness :
    last_usedOf id (get_available_key id (runSelects id ⟨["a"], []⟩ []) 100 0).2 "a" = 100 ∧
    (100 : Int) + 6 ≤ 106 :=
  select_spacing id ⟨["a"], []⟩ [] [] 100 106 0 0 "a" (by decide) (by decide)

/-- C10: `update_key_status` and `get_key_status` never check pool
membership: for a key outside the credential list (and with no recorded
state), the status reads as the empty record, a failure report succeeds and
creates a state entry under the key's fingerprint, this entry is found in
the key-state map, and a successful write persists the map containing it. -/
theorem update_unknown_key (hash : String → String) (m : Manager) (k em : String)
    (ec now : Int) (hk : k ∉ m.api_keys)
    (hstate : alookup m.key_states (hash k) = none) :
    get_key_status hash m k = [] ∧
    update_key_status hash m k false (some em) (some ec) now
      = Except.ok ⟨m.api_keys, ainsert m.key_states (hash k)
          [("cooldown_until", JVal.num (now + 6 * 3600)), ("error_message", JVal.str em),
            ("error_code", JVal.num ec)]⟩ ∧
    alookup (ainsert m.key_states (hash k)
        [("cooldown_until", JVal.num (now + 6 * 3600)), ("error_message", JVal.str em),
          ("error_code", JVal.num ec)]) (hash k)
      = some [("cooldown_until", JVal.num (now + 6 * 3600)), ("error_message", JVal.str em),
          ("error_code", JVal.num ec)] ∧
    updateSys hash true ⟨m, m.key_states⟩ k false (some em) (some ec) now
      = Except.ok ⟨⟨m.api_keys, ainsert m.key_states (hash k)
            [("cooldown_until", JVal.num (now + 6 * 3600)), ("error_message", JVal.str em),
              ("error_code", JVal.num ec)]⟩,
          ainsert m.key_states (hash k)
            [("cooldown_until", JVal.num (now + 6 * 3600)), ("error_message", JVal.str em),
              ("error_code", JVal.num ec)]⟩ := by
  have n1 : ("cooldown_until" : String) ≠ "error_message" := by decide
  have n2 : ("cooldown_until" : String) ≠ "error_code" := by decide
  have n3 : ("error_message" : String) ≠ "error_code" := by decide
  have hupd := update_failure_eq hash m k em ec now
  rw [hstate] at hupd
  simp only [Option.getD_none] at hupd
  simp only [ainsert, n1, n2, n3, if_false, ite_false, if_neg n1, if_neg n2, if_neg n3] at hupd
  refine ⟨?_, hupd, alookup_ainsert_self _ _ _, ?_⟩
  · rw [get_key_status, hstate]
    rfl
  · rw [updateSys, hupd]
    rfl

/-- Witness for C10: key "b" is outside the pool ["a"], yet reading its
status gives the empty record and the fresh failure entry is found under its
fingerprint. -/
theorem update_unknown_key_witness :
    get_key_status id ⟨["a"], []⟩ "b" = [] ∧
    alookup (ainsert ([] : StateMap) (id "b")
        [("cooldown_until", JVal.num (1 + 6 * 3600)), ("error_message", JVal.str "x"),
          ("error_code", JVal.num 9)]) (id "b")
      = some [("cooldown_until", JVal.num (1 + 6 * 3600)), ("error_message", JVal.str "x"),
          ("error_code", JVal.num 9)] :=
  ⟨(update_unknown_key id ⟨["a"], []⟩ "b" "x" 9 1 (by decide) rfl).1,
   (update_unknown_key id ⟨["a"], []⟩ "b" "x" 9 1 (by decide) rfl).2.2.1⟩

end KeyPool
